import Mathlib

/-!
Verification of the distortos RTOS core against its specification.

The development shallowly embeds the relevant parts of the repository:
the SerialPort circular buffer (SerialPort.hpp), the SPI SD/MMC card
driver (SpiSdMmcCard.cpp), and - where only declarations, documentation
or tests of a component are present in the repository - models of the
scheduler and the queue primitives built from the specification.
Machine size_t values are embedded as Nat; no arithmetic operation in
the embedded code paths can wrap for any realizable object (every
subtraction is guarded in the source, and buffer sizes are bounded by
the address space), so the embedding is exact on all constructible
states.

The file is organized as definitions first, then the lemmas and
theorems about them.
-/

namespace Distortos

/-- Error code EINTR (newlib value), returned when a blocked thread is woken by a signal. -/
def EINTR : Nat := 4

/-- Error code EAGAIN (newlib value), returned by non-blocking tryXxx variants. -/
def EAGAIN : Nat := 11

/-- Error code EINVAL (newlib value), returned on precondition violations. -/
def EINVAL : Nat := 22

/-- Error code ETIMEDOUT (newlib value), returned when a timed wait reaches its deadline. -/
def ETIMEDOUT : Nat := 116

/-- Error code EMSGSIZE (newlib value), returned by raw queue operations on element size mismatch. -/
def EMSGSIZE : Nat := 122

namespace CircularBuffer

/-- Embedding of SerialPort::CircularBuffer::getCapacity:
returns size_ - 2 when size_ is at least 2, and 0 otherwise
(the source expression is a conditional, so the subtraction never wraps). -/
def getCapacity (size : Nat) : Nat :=
  if 2 ≤ size then size - 2 else 0

/-- Embedding of SerialPort::CircularBuffer::getSize:
the amount of valid data is (size_ - readPosition_ + writePosition_) % size_.
With readPosition below size the subtraction never wraps. -/
def getSize (size readPosition writePosition : Nat) : Nat :=
  (size - readPosition + writePosition) % size

/-- Embedding of SerialPort::CircularBuffer::increaseReadPosition:
readPosition_ = (readPosition_ + value) % size_. -/
def increaseReadPosition (size readPosition value : Nat) : Nat :=
  (readPosition + value) % size

/-- Embedding of SerialPort::CircularBuffer::increaseWritePosition:
writePosition_ = (writePosition_ + value) % size_. -/
def increaseWritePosition (size writePosition value : Nat) : Nat :=
  (writePosition + value) % size

/-- Embedding of SerialPort::CircularBuffer::isEmpty:
the buffer is empty when readPosition_ == writePosition_. -/
def isEmpty (readPosition writePosition : Nat) : Bool :=
  readPosition == writePosition

/-- Embedding of SerialPort::CircularBuffer::isFull:
the buffer is full when readPosition_ == (writePosition_ + 2) % size_. -/
def isFull (size readPosition writePosition : Nat) : Bool :=
  readPosition == (writePosition + 2) % size

/-- Modelled from the spec: the states of the circular buffer reachable through the
single-producer/single-consumer protocol. The bodies of getWriteBlock and getReadBlock are not part
of the repository slice; per the specification the sentinel slot is preserved, so a write position
increase obtained from getWriteBlock never exceeds the free space (getCapacity minus getSize) and a
read position increase obtained from getReadBlock never exceeds getSize. -/
inductive Reachable (size : Nat) : Nat → Nat → Prop
  | init : Reachable size 0 0
  | write (r w k : Nat) (h : Reachable size r w)
      (hk : getSize size r w + k ≤ getCapacity size) :
      Reachable size r (increaseWritePosition size w k)
  | read (r w k : Nat) (h : Reachable size r w)
      (hk : k ≤ getSize size r w) :
      Reachable size (increaseReadPosition size r k) w

end CircularBuffer

namespace SpiSdMmcCard

/-- Embedding of SpiSdMmcCard::Type: the type of card connected via SPI. -/
inductive CardType
  | unknown
  | mmc
  | sdVersion1
  | sdVersion2
deriving DecidableEq

/-- Embedding of the state of a SpiSdMmcCard object (SpiSdMmcCard.hpp data members relevant to the
device's behaviour). -/
structure Card where
  blocksCount : Nat
  clockFrequency : Nat
  blockAddressing : Bool
  type : CardType

/-- Embedding of the constant SpiSdMmcCard::blockSize. -/
def blockSize : Nat := 512

/-- Embedding of SpiSdMmcCard::getErasedValue: the source returns a value-initialized
std::pair of bool and uint8_t, i.e. (false, 0), without reading any member of the object. -/
def getErasedValue (_card : Card) : Bool × Nat :=
  (false, 0)

end SpiSdMmcCard

namespace Queues

/-- Modelled from the spec: the state of a bounded priority queue (message or FIFO, typed or raw -
the queue implementations are not part of the repository slice, only their tests are). entries
holds the buffered elements as (priority, value) pairs sorted by descending priority, FIFO within
equal priority; pusherWaiters holds the data of threads blocked pushing into a full queue in wait
order; popperWaiters counts the threads blocked popping from an empty queue. -/
structure Queue (α : Type) where
  capacity : Nat
  entries : List (Nat × α)
  pusherWaiters : List (Nat × α)
  popperWaiters : Nat
deriving DecidableEq

/-- Priority-ordered insertion: the new element goes after every element of priority greater than
or equal to its own (descending priority, FIFO within equal priority). -/
def insertByPriority {α : Type} : List (Nat × α) → Nat → α → List (Nat × α)
  | [], prio, v => [(prio, v)]
  | (p, x) :: rest, prio, v =>
    if prio ≤ p then (p, x) :: insertByPriority rest prio v
    else (prio, v) :: (p, x) :: rest

/-- Modelled from the spec: the outcome of a queue operation as observed by the caller. ret is the
returned error code, queue the state of the queue afterwards, delivered the element handed over (to
the popper on a pop, directly to a waiting popper on a rendezvous push), elapsedTicks how many ticks
passed inside the call and suspended whether the calling thread was suspended. -/
structure OpResult (α : Type) where
  ret : Nat
  queue : Queue α
  delivered : Option (Nat × α)
  elapsedTicks : Nat
  suspended : Bool
deriving DecidableEq

/-- Modelled from the spec: the non-blocking precondition of a push - the rendezvous can complete
immediately because a popper is waiting, or a buffer slot is free. -/
def pushPrecondition {α : Type} (q : Queue α) : Prop :=
  0 < q.popperWaiters ∨ q.entries.length < q.capacity

instance {α : Type} (q : Queue α) : Decidable (pushPrecondition q) := by
  unfold pushPrecondition
  infer_instance

/-- Modelled from the spec: the non-blocking precondition of a pop - an element is buffered, or a
pusher is waiting (rendezvous on a capacity-0 queue). -/
def popPrecondition {α : Type} (q : Queue α) : Prop :=
  q.entries ≠ [] ∨ q.pusherWaiters ≠ []

instance {α : Type} (q : Queue α) : Decidable (popPrecondition q) :=
  decidable_of_iff (q.entries.length ≠ 0 ∨ q.pusherWaiters.length ≠ 0)
    (by simp [popPrecondition])

/-- Modelled from the spec: tryPush/tryEmplace. The operation first checks the popper-waiter list -
if non-empty the rendezvous moves the element directly to the waiting popper; otherwise a free slot
is used; otherwise it fails with EAGAIN. It never suspends the caller and consumes no ticks. -/
def tryPush {α : Type} (q : Queue α) (prio : Nat) (v : α) : OpResult α :=
  if 0 < q.popperWaiters then
    { ret := 0, queue := { q with popperWaiters := q.popperWaiters - 1 },
      delivered := some (prio, v), elapsedTicks := 0, suspended := false }
  else if q.entries.length < q.capacity then
    { ret := 0, queue := { q with entries := insertByPriority q.entries prio v },
      delivered := none, elapsedTicks := 0, suspended := false }
  else
    { ret := EAGAIN, queue := q, delivered := none, elapsedTicks := 0, suspended := false }

/-- Modelled from the spec: tryPop. The highest-priority oldest buffered element is returned; if a
pusher is waiting its element then takes the freed slot (or, on a capacity-0 queue, is handed over
directly). On an empty queue with no waiting pusher it fails with EAGAIN. It never suspends the
caller and consumes no ticks. -/
def tryPop {α : Type} (q : Queue α) : OpResult α :=
  match q.entries with
  | (p, v) :: rest =>
    match q.pusherWaiters with
    | [] =>
      { ret := 0, queue := { q with entries := rest },
        delivered := some (p, v), elapsedTicks := 0, suspended := false }
    | (pp, pv) :: ws =>
      { ret := 0,
        queue := { q with entries := insertByPriority rest pp pv, pusherWaiters := ws },
        delivered := some (p, v), elapsedTicks := 0, suspended := false }
  | [] =>
    match q.pusherWaiters with
    | (pp, pv) :: ws =>
      { ret := 0, queue := { q with pusherWaiters := ws },
        delivered := some (pp, pv), elapsedTicks := 0, suspended := false }
    | [] =>
      { ret := EAGAIN, queue := q, delivered := none, elapsedTicks := 0, suspended := false }

/-- Modelled from the spec: a raw queue - a queue of byte sequences with a fixed element size
checked at runtime by every operation. -/
structure RawQueue where
  elementSize : Nat
  queue : Queue (List Nat)
deriving DecidableEq

/-- Modelled from the spec: the outcome of a raw queue operation as observed at the call site.
immediate: the call returns without suspending the caller, with the given error code, queue state
and number of ticks consumed. suspends: the caller blocks indefinitely on the queue's waiter list.
suspendsUntil: the caller blocks with an internal timer armed at the given absolute deadline. -/
inductive RawOutcome
  | immediate (ret : Nat) (rq : RawQueue) (elapsedTicks : Nat)
  | suspends (rq : RawQueue)
  | suspendsUntil (rq : RawQueue) (deadline : Nat)
deriving DecidableEq

/-- Modelled from the spec: raw blocking push. The element size is validated first - on mismatch
the call fails immediately with EMSGSIZE and touches nothing; otherwise, if the non-blocking
precondition holds the push completes immediately, else the caller joins the pusher waiters and
blocks. -/
def rawPush (rq : RawQueue) (prio : Nat) (data : List Nat) (size : Nat) : RawOutcome :=
  if size ≠ rq.elementSize then .immediate EMSGSIZE rq 0
  else if pushPrecondition rq.queue then
    let r := tryPush rq.queue prio data
    .immediate r.ret { rq with queue := r.queue } 0
  else
    .suspends
      { rq with queue :=
        { rq.queue with pusherWaiters := rq.queue.pusherWaiters ++ [(prio, data)] } }

/-- Modelled from the spec: raw tryPush - size check first, then the non-blocking push. -/
def rawTryPush (rq : RawQueue) (prio : Nat) (data : List Nat) (size : Nat) : RawOutcome :=
  if size ≠ rq.elementSize then .immediate EMSGSIZE rq 0
  else
    let r := tryPush rq.queue prio data
    .immediate r.ret { rq with queue := r.queue } 0

/-- Modelled from the spec: raw tryPushUntil - size check first; if the push cannot complete
immediately the caller blocks with a timer armed at the absolute deadline. -/
def rawTryPushUntil (rq : RawQueue) (deadline prio : Nat) (data : List Nat) (size : Nat) :
    RawOutcome :=
  if size ≠ rq.elementSize then .immediate EMSGSIZE rq 0
  else if pushPrecondition rq.queue then
    let r := tryPush rq.queue prio data
    .immediate r.ret { rq with queue := r.queue } 0
  else
    .suspendsUntil
      { rq with queue :=
        { rq.queue with pusherWaiters := rq.queue.pusherWaiters ++ [(prio, data)] } }
      deadline

/-- Modelled from the spec: raw tryPushFor - the relative duration is converted to the absolute
deadline now + duration + 1 (one tick is added so that the wait lasts at least the requested
duration, as the test suite's expected wake times confirm). -/
def rawTryPushFor (rq : RawQueue) (now duration prio : Nat) (data : List Nat) (size : Nat) :
    RawOutcome :=
  rawTryPushUntil rq (now + duration + 1) prio data size

/-- Modelled from the spec: raw blocking pop. The element size is validated first - on mismatch
the call fails immediately with EMSGSIZE and touches nothing; otherwise, if the non-blocking
precondition holds the pop completes immediately, else the caller joins the popper waiters and
blocks. -/
def rawPop (rq : RawQueue) (size : Nat) : RawOutcome :=
  if size ≠ rq.elementSize then .immediate EMSGSIZE rq 0
  else if popPrecondition rq.queue then
    let r := tryPop rq.queue
    .immediate r.ret { rq with queue := r.queue } 0
  else
    .suspends
      { rq with queue := { rq.queue with popperWaiters := rq.queue.popperWaiters + 1 } }

/-- Modelled from the spec: raw tryPop - size check first, then the non-blocking pop. -/
def rawTryPop (rq : RawQueue) (size : Nat) : RawOutcome :=
  if size ≠ rq.elementSize then .immediate EMSGSIZE rq 0
  else
    let r := tryPop rq.queue
    .immediate r.ret { rq with queue := r.queue } 0

/-- Modelled from the spec: raw tryPopUntil - size check first; if the pop cannot complete
immediately the caller blocks with a timer armed at the absolute deadline. -/
def rawTryPopUntil (rq : RawQueue) (deadline : Nat) (size : Nat) : RawOutcome :=
  if size ≠ rq.elementSize then .immediate EMSGSIZE rq 0
  else if popPrecondition rq.queue then
    let r := tryPop rq.queue
    .immediate r.ret { rq with queue := r.queue } 0
  else
    .suspendsUntil
      { rq with queue := { rq.queue with popperWaiters := rq.queue.popperWaiters + 1 } }
      deadline

/-- Modelled from the spec: raw tryPopFor - the relative duration is converted to the absolute
deadline now + duration + 1, as for rawTryPushFor. -/
def rawTryPopFor (rq : RawQueue) (now duration : Nat) (size : Nat) : RawOutcome :=
  rawTryPopUntil rq (now + duration + 1) size

/-- The idle thread spinning for a number of ticks: starting at the given tick, it advances the
tick counter one step per recursion and returns the tick at which it is preempted. -/
def runIdle : Nat → Nat → Nat
  | tick, 0 => tick
  | tick, n + 1 => runIdle (tick + 1) n

/-- Modelled from the spec: the observable result - (returned code, tick at which the call
returns, context switches during the call) - of a raw queue call issued by the main thread in a
system where only the main and idle threads exist and no other thread ever completes a rendezvous.
An immediate outcome returns on the spot with no context switch. A timed suspension costs one
context switch to the idle thread, the idle thread spins until the internal timer fires at the
deadline and unblocks main with reason Timeout, and a second context switch returns to main, which
reads ETIMEDOUT. An indefinite suspension never returns in such a system; the arm is a placeholder
that no timed operation reaches. -/
def mainIdleTimedRun (out : RawOutcome) (start : Nat) : Nat × Nat × Nat :=
  match out with
  | .immediate ret _ elapsed => (ret, start + elapsed, 0)
  | .suspends _ => (0, start, 0)
  | .suspendsUntil _ deadline => (ETIMEDOUT, runIdle start (deadline - start), 2)

/-- Modelled from the spec: the phase-3 scenario of QueueOperationsTestCase. The main thread calls
pop() on an empty capacity-1 queue: the non-blocking precondition fails, so main blocks as a popper
waiter (context switch main to idle). The idle thread runs until the software timer's absolute
deadline start + delay. The timer's action calls tryPush from interrupt context, which completes
the rendezvous, delivering (prio, val) directly to main and unblocking it with reason
UnblockRequest (context switch idle to main). The result is (pop return value, wake tick, received
priority, received value, context switches). -/
def phase3Run (start delay prio val : Nat) : Nat × Nat × Nat × Nat × Nat :=
  let q0 : Queue Nat := ⟨1, [], [], 0⟩
  let popAttempt := tryPop q0
  if popAttempt.ret == EAGAIN then
    let q1 : Queue Nat := { q0 with popperWaiters := q0.popperWaiters + 1 }
    let wake := runIdle start delay
    let pushResult := tryPush q1 prio val
    match pushResult.delivered with
    | some (p, v) => (0, wake, p, v, 2)
    | none => (pushResult.ret, wake, 0, 0, 1)
  else (popAttempt.ret, start, 0, 0, 0)

end Queues

namespace Scheduler

/-- Embedding of ThreadControlBlock::UnblockReason: the reason a blocked thread was unblocked. -/
inductive UnblockReason
  | unblockRequest
  | timeout
  | signal
deriving DecidableEq

/-- Embedding of ThreadState: the scheduling state of a thread. -/
inductive ThreadState
  | created
  | runnable
  | blocked
  | suspended
  | terminated
deriving DecidableEq

/-- Embedding of the parts of ThreadControlBlock that the blocking protocol uses: the thread's
state and its stored unblock reason (meaningful only while the thread is being unblocked). -/
structure ThreadControlBlock where
  state : ThreadState
  unblockReason : Option UnblockReason
deriving DecidableEq

/-- Modelled from the spec: Scheduler::unblockInternal / ThreadControlBlock::unblockHook - the
waking side stores the unblock reason in the thread and moves it back to the runnable state
(Scheduler.cpp is not part of the repository slice; this follows the contracts documented in
Scheduler.hpp). -/
def unblockHook (t : ThreadControlBlock) (reason : UnblockReason) : ThreadControlBlock :=
  { t with state := .runnable, unblockReason := some reason }

/-- Modelled from the spec: the integer value a call to Scheduler::block or blockUntil returns
once the blocked current thread has resumed - the stored unblock reason is read back and mapped to
an error code; none while the thread has not been resumed. A thread that was never unblocked with
an explicit reason resumes with 0. -/
def blockResumeValue (t : ThreadControlBlock) : Option Nat :=
  match t.state, t.unblockReason with
  | .runnable, some .unblockRequest => some 0
  | .runnable, some .timeout => some ETIMEDOUT
  | .runnable, some .signal => some EINTR
  | .runnable, none => some 0
  | _, _ => none

/-- Modelled from the spec: the scheduler state that the context-switch decision reads - the
runnable list (thread identifiers in selection order, head first) and the current thread. -/
structure SchedulerState where
  runnableList : List Nat
  currentThread : Nat
deriving DecidableEq

/-- Modelled from the spec: Scheduler::isContextSwitchRequired per its documentation in
Scheduler.hpp (the implementation file is not part of the repository slice). A context switch is
required when the current thread is no longer on the runnable list, or when it is no longer at the
beginning of the runnable list. -/
def isContextSwitchRequired (s : SchedulerState) : Bool :=
  if s.currentThread ∉ s.runnableList then true
  else if s.runnableList.head? ≠ some s.currentThread then true
  else false

/-- The claim's wording of the context-switch condition, kept separate for comparison with
isContextSwitchRequired: a switch is required iff the current thread is no longer the head of the
runnable list or is no longer on the runnable list at all. -/
def contextSwitchRequiredSpec (s : SchedulerState) : Prop :=
  s.runnableList.head? ≠ some s.currentThread ∨ s.currentThread ∉ s.runnableList

/-- Identifier of the idle thread (idleThreadControlBlock, created with priority 0). -/
def idleThreadId : Nat := 0

/-- Modelled from the spec: the effect of one scheduler operation on the runnable list, recorded
as (effective priority, thread id) pairs sorted by descending priority, FIFO within equal
priority. add/unblock/resume insert a thread with effective priority at least 1 (static priorities
of ordinary threads start at 1, the main thread's priority must exceed the idle thread's, and
effective priority never drops below static); the idle thread is added exactly once, at
initialization. block/suspend/remove take a non-idle thread off the list - the idle thread's body
(idleThreadControlBlock.cpp) is an infinite loop that never blocks, and it is never suspended or
terminated. yield rotates the head of the list to the tail of its priority band. -/
inductive SchedulerOp : List (Nat × Nat) → List (Nat × Nat) → Prop
  | add (s : List (Nat × Nat)) (prio tid : Nat) (hprio : 1 ≤ prio) (htid : tid ≠ idleThreadId) :
      SchedulerOp s (Queues.insertByPriority s prio tid)
  | removeThread (s : List (Nat × Nat)) (tid : Nat) (htid : tid ≠ idleThreadId) :
      SchedulerOp s (s.filter (fun e => e.2 != tid))
  | yield (prio tid : Nat) (rest : List (Nat × Nat)) :
      SchedulerOp ((prio, tid) :: rest) (Queues.insertByPriority rest prio tid)

/-- Modelled from the spec: the runnable lists reachable after scheduler initialization - the idle
thread (priority 0) and the main thread (priority at least 1) are registered, then any sequence of
scheduler operations runs. -/
inductive SchedulerReachable : List (Nat × Nat) → Prop
  | init (mainPrio mainTid : Nat) (hprio : 1 ≤ mainPrio) (htid : mainTid ≠ idleThreadId) :
      SchedulerReachable (Queues.insertByPriority [(0, idleThreadId)] mainPrio mainTid)
  | step (s s' : List (Nat × Nat)) (h : SchedulerReachable s) (hop : SchedulerOp s s') :
      SchedulerReachable s'

/-- Invariant of the runnable list: the idle thread is present with priority 0, every other thread
has priority at least 1, and the list is sorted by descending priority. -/
def SchedInv (s : List (Nat × Nat)) : Prop :=
  (0, idleThreadId) ∈ s ∧
  (∀ p t, (p, t) ∈ s → (t = idleThreadId → p = 0) ∧ (t ≠ idleThreadId → 1 ≤ p)) ∧
  s.Pairwise (fun a b => b.1 ≤ a.1)

end Scheduler

namespace CircularBuffer

/-- A value below twice the modulus reduces to itself or to itself minus the modulus. -/
lemma mod_of_lt_two_mul (t size : Nat) (h : t < 2 * size) :
    t % size = if t < size then t else t - size := by
  by_cases hlt : t < size
  · simp [hlt, Nat.mod_eq_of_lt hlt]
  · have hge : size ≤ t := Nat.le_of_not_lt hlt
    have hsub : t - size < size := by omega
    simp [hlt, Nat.mod_eq_sub_mod hge, Nat.mod_eq_of_lt hsub]

/-- With in-range positions, getSize is the linear distance from read to write position. -/
lemma getSize_eq (size r w : Nat) (hr : r < size) (hw : w < size) :
    getSize size r w = if w < r then size - r + w else w - r := by
  have hbound : size - r + w < 2 * size := by omega
  rw [getSize, mod_of_lt_two_mul _ _ hbound]
  by_cases hwr : w < r
  · have : size - r + w < size := by omega
    simp [this, hwr]
  · have : ¬ (size - r + w < size) := by omega
    simp [this, hwr]
    omega

/-- Advancing the write position by k within the free space increases getSize by exactly k. -/
lemma getSize_write (size r w k : Nat) (h4 : 4 ≤ size)
    (hk : getSize size r w + k ≤ getCapacity size) :
    getSize size r (increaseWritePosition size w k) = getSize size r w + k := by
  unfold increaseWritePosition getSize
  rw [Nat.add_mod_mod]
  have hassoc : size - r + (w + k) = size - r + w + k := by omega
  rw [hassoc, ← Nat.mod_add_mod]
  have hcap : (size - r + w) % size + k ≤ size - 2 := by
    rw [getCapacity, if_pos (by omega : 2 ≤ size)] at hk
    unfold getSize at hk
    omega
  exact Nat.mod_eq_of_lt (by omega)

/-- Advancing the read position by k within the valid data decreases getSize by exactly k. -/
lemma getSize_read (size r w k : Nat) (h4 : 4 ≤ size) (hr : r < size) (hw : w < size)
    (hk : k ≤ getSize size r w) :
    getSize size (increaseReadPosition size r k) w = getSize size r w - k := by
  have hglt : getSize size r w < size := Nat.mod_lt _ (by omega)
  have hrk : r + k < 2 * size := by omega
  rw [increaseReadPosition, mod_of_lt_two_mul _ _ hrk]
  rw [getSize_eq size r w hr hw] at hk ⊢
  by_cases hc : r + k < size
  · rw [if_pos hc, getSize_eq size (r + k) w hc hw]
    split_ifs at hk ⊢ <;> omega
  · rw [if_neg hc, getSize_eq size (r + k - size) w (by omega) hw]
    split_ifs at hk ⊢ <;> omega

/-- Every reachable buffer state keeps both positions in range and the amount of valid data within
the capacity. -/
lemma reachable_bounds (size : Nat) (h4 : 4 ≤ size) :
    ∀ r w, Reachable size r w → r < size ∧ w < size ∧ getSize size r w ≤ getCapacity size := by
  intro r w h
  induction h with
  | init =>
    refine ⟨by omega, by omega, ?_⟩
    simp [getSize, Nat.mod_self]
  | write r w k h hk ih =>
    obtain ⟨hr, hw, hg⟩ := ih
    refine ⟨hr, Nat.mod_lt _ (by omega), ?_⟩
    rw [getSize_write size r w k h4 hk]
    exact hk
  | read r w k h hk ih =>
    obtain ⟨hr, hw, hg⟩ := ih
    refine ⟨Nat.mod_lt _ (by omega), hw, ?_⟩
    rw [getSize_read size r w k h4 hr hw hk]
    exact le_trans (Nat.sub_le _ _) hg

/-- C8: for every SerialPort::CircularBuffer constructed with buffer size size (the constructor
contract requires size to be at least 4, so in particular at least 2), getCapacity() returns
size - 2. -/
theorem getCapacity_eq_size_sub_two (size : Nat) (h : 2 ≤ size) :
    getCapacity size = size - 2 := by
  rw [getCapacity, if_pos h]

/-- Witness for C8 at the concrete buffer size 16. -/
theorem getCapacity_eq_size_sub_two_witness : getCapacity 16 = 16 - 2 :=
  getCapacity_eq_size_sub_two 16 (by decide)

/-- C9: for every CircularBuffer with even size at least 4 and read/write positions in [0, size),
isEmpty() holds iff getSize() = 0 and isFull() holds iff getSize() = getCapacity(); consequently on
every state reachable through the producer/consumer protocol getSize() stays within getCapacity()
(the sentinel bytes are never counted as valid data) and getSize() = size - 1 is never observed. -/
theorem empty_full_size_characterization (size r w : Nat) (h4 : 4 ≤ size)
    (heven : size % 2 = 0) (hr : r < size) (hw : w < size) :
    (isEmpty r w = true ↔ getSize size r w = 0) ∧
    (isFull size r w = true ↔ getSize size r w = getCapacity size) ∧
    (Reachable size r w → getSize size r w ≤ getCapacity size ∧ getSize size r w ≠ size - 1) := by
  refine ⟨?_, ?_, ?_⟩
  · simp only [isEmpty, beq_iff_eq]
    rw [getSize_eq size r w hr hw]
    split_ifs <;> omega
  · simp only [isFull, beq_iff_eq]
    rw [getSize_eq size r w hr hw, getCapacity, if_pos (by omega : 2 ≤ size)]
    rw [mod_of_lt_two_mul _ _ (by omega : w + 2 < 2 * size)]
    split_ifs <;> omega
  · intro hreach
    obtain ⟨_, _, hg⟩ := reachable_bounds size h4 r w hreach
    have hcap : getCapacity size = size - 2 := by rw [getCapacity, if_pos (by omega : 2 ≤ size)]
    exact ⟨hg, by omega⟩

/-- Witness for C9 at the concrete buffer size 8 with both positions 0. -/
theorem empty_full_size_characterization_witness :
    (isEmpty 0 0 = true ↔ getSize 8 0 0 = 0) ∧
    (isFull 8 0 0 = true ↔ getSize 8 0 0 = getCapacity 8) ∧
    (Reachable 8 0 0 → getSize 8 0 0 ≤ getCapacity 8 ∧ getSize 8 0 0 ≠ 8 - 1) :=
  empty_full_size_characterization 8 0 0 (by decide) (by decide) (by decide) (by decide)

end CircularBuffer

namespace SpiSdMmcCard

/-- C10: SpiSdMmcCard::getErasedValue() always returns the default pair (false, 0) - erased value
not defined - regardless of the card's state or type. -/
theorem getErasedValue_default (card : Card) : getErasedValue card = (false, 0) :=
  rfl

end SpiSdMmcCard

namespace Queues

/-- C3: the non-blocking tryPush/tryEmplace/tryPop variants never suspend the calling thread and
consume no ticks; when the non-blocking precondition fails they return EAGAIN with the queue state
unchanged, and when it holds they complete immediately with result 0. -/
theorem try_variants_never_suspend {α : Type} (q : Queue α) (prio : Nat) (v : α) :
    (tryPush q prio v).suspended = false ∧ (tryPush q prio v).elapsedTicks = 0 ∧
    (tryPop q).suspended = false ∧ (tryPop q).elapsedTicks = 0 ∧
    (¬ pushPrecondition q →
      (tryPush q prio v).ret = EAGAIN ∧ (tryPush q prio v).queue = q) ∧
    (pushPrecondition q → (tryPush q prio v).ret = 0) ∧
    (¬ popPrecondition q → (tryPop q).ret = EAGAIN ∧ (tryPop q).queue = q) ∧
    (popPrecondition q → (tryPop q).ret = 0) := by
  unfold pushPrecondition popPrecondition tryPush tryPop
  refine ⟨?_, ?_, ?_, ?_, ?_, ?_, ?_, ?_⟩
  · split_ifs <;> rfl
  · split_ifs <;> rfl
  · rcases he : q.entries with _ | ⟨⟨p, x⟩, rest⟩ <;>
      rcases hw : q.pusherWaiters with _ | ⟨⟨pp, px⟩, ws⟩ <;> rfl
  · rcases he : q.entries with _ | ⟨⟨p, x⟩, rest⟩ <;>
      rcases hw : q.pusherWaiters with _ | ⟨⟨pp, px⟩, ws⟩ <;> rfl
  · intro hfail
    push_neg at hfail
    obtain ⟨h1, h2⟩ := hfail
    rw [if_neg (by omega), if_neg (by omega)]
    exact ⟨rfl, rfl⟩
  · intro hok
    rcases hok with h1 | h2
    · rw [if_pos h1]
    · by_cases h1 : 0 < q.popperWaiters
      · rw [if_pos h1]
      · rw [if_neg h1, if_pos h2]
  · intro hfail
    push_neg at hfail
    obtain ⟨h1, h2⟩ := hfail
    rcases he : q.entries with _ | ⟨⟨p, x⟩, rest⟩
    · rcases hw : q.pusherWaiters with _ | ⟨⟨pp, px⟩, ws⟩
      · exact ⟨rfl, rfl⟩
      · exact absurd hw (by simp [h2])
    · exact absurd he (by simp [h1])
  · intro hok
    rcases he : q.entries with _ | ⟨⟨p, x⟩, rest⟩ <;>
      rcases hw : q.pusherWaiters with _ | ⟨⟨pp, px⟩, ws⟩ <;>
        first
          | rfl
          | (exfalso; rcases hok with h | h <;> simp [he, hw] at h)

/-- Witness for C3: a capacity-0 queue of Nat with no waiters fails both preconditions, so tryPush
and tryPop return EAGAIN and leave the queue untouched. -/
theorem try_variants_never_suspend_witness :
    (tryPush (⟨0, [], [], 0⟩ : Queue Nat) 5 7).suspended = false ∧
    (tryPush (⟨0, [], [], 0⟩ : Queue Nat) 5 7).elapsedTicks = 0 ∧
    (tryPop (⟨0, [], [], 0⟩ : Queue Nat)).suspended = false ∧
    (tryPop (⟨0, [], [], 0⟩ : Queue Nat)).elapsedTicks = 0 ∧
    (¬ pushPrecondition (⟨0, [], [], 0⟩ : Queue Nat) →
      (tryPush (⟨0, [], [], 0⟩ : Queue Nat) 5 7).ret = EAGAIN ∧
      (tryPush (⟨0, [], [], 0⟩ : Queue Nat) 5 7).queue = ⟨0, [], [], 0⟩) ∧
    (pushPrecondition (⟨0, [], [], 0⟩ : Queue Nat) →
      (tryPush (⟨0, [], [], 0⟩ : Queue Nat) 5 7).ret = 0) ∧
    (¬ popPrecondition (⟨0, [], [], 0⟩ : Queue Nat) →
      (tryPop (⟨0, [], [], 0⟩ : Queue Nat)).ret = EAGAIN ∧
      (tryPop (⟨0, [], [], 0⟩ : Queue Nat)).queue = ⟨0, [], [], 0⟩) ∧
    (popPrecondition (⟨0, [], [], 0⟩ : Queue Nat) → (tryPop (⟨0, [], [], 0⟩ : Queue Nat)).ret = 0) :=
  try_variants_never_suspend (⟨0, [], [], 0⟩ : Queue Nat) 5 7

/-- C2: for every raw queue (FIFO or message) and every push/pop variant, a size argument different
from the queue's fixed element size makes the operation return EMSGSIZE immediately - without
blocking the caller and without any tick passing - and leaves the queue state unchanged. -/
theorem raw_size_mismatch_returns_emsgsize (rq : RawQueue) (now deadline duration prio : Nat)
    (data : List Nat) (size : Nat) (h : size ≠ rq.elementSize) :
    rawPush rq prio data size = .immediate EMSGSIZE rq 0 ∧
    rawTryPush rq prio data size = .immediate EMSGSIZE rq 0 ∧
    rawTryPushFor rq now duration prio data size = .immediate EMSGSIZE rq 0 ∧
    rawTryPushUntil rq deadline prio data size = .immediate EMSGSIZE rq 0 ∧
    rawPop rq size = .immediate EMSGSIZE rq 0 ∧
    rawTryPop rq size = .immediate EMSGSIZE rq 0 ∧
    rawTryPopFor rq now duration size = .immediate EMSGSIZE rq 0 ∧
    rawTryPopUntil rq deadline size = .immediate EMSGSIZE rq 0 := by
  simp [rawPush, rawTryPush, rawTryPushFor, rawTryPushUntil, rawPop, rawTryPop, rawTryPopFor,
    rawTryPopUntil, h]

/-- Witness for C2: a raw queue with element size 4 rejects all eight variants called with size 3. -/
theorem raw_size_mismatch_returns_emsgsize_witness :
    rawPush ⟨4, ⟨0, [], [], 0⟩⟩ 0 [1, 2, 3] 3 = .immediate EMSGSIZE ⟨4, ⟨0, [], [], 0⟩⟩ 0 ∧
    rawTryPush ⟨4, ⟨0, [], [], 0⟩⟩ 0 [1, 2, 3] 3 = .immediate EMSGSIZE ⟨4, ⟨0, [], [], 0⟩⟩ 0 ∧
    rawTryPushFor ⟨4, ⟨0, [], [], 0⟩⟩ 0 1 0 [1, 2, 3] 3 =
      .immediate EMSGSIZE ⟨4, ⟨0, [], [], 0⟩⟩ 0 ∧
    rawTryPushUntil ⟨4, ⟨0, [], [], 0⟩⟩ 5 0 [1, 2, 3] 3 =
      .immediate EMSGSIZE ⟨4, ⟨0, [], [], 0⟩⟩ 0 ∧
    rawPop ⟨4, ⟨0, [], [], 0⟩⟩ 3 = .immediate EMSGSIZE ⟨4, ⟨0, [], [], 0⟩⟩ 0 ∧
    rawTryPop ⟨4, ⟨0, [], [], 0⟩⟩ 3 = .immediate EMSGSIZE ⟨4, ⟨0, [], [], 0⟩⟩ 0 ∧
    rawTryPopFor ⟨4, ⟨0, [], [], 0⟩⟩ 0 1 3 = .immediate EMSGSIZE ⟨4, ⟨0, [], [], 0⟩⟩ 0 ∧
    rawTryPopUntil ⟨4, ⟨0, [], [], 0⟩⟩ 5 3 = .immediate EMSGSIZE ⟨4, ⟨0, [], [], 0⟩⟩ 0 :=
  raw_size_mismatch_returns_emsgsize ⟨4, ⟨0, [], [], 0⟩⟩ 0 5 1 0 [1, 2, 3] 3 (by decide)

/-- The idle spin advances the tick counter by exactly its budget. -/
lemma runIdle_eq (t n : Nat) : runIdle t n = t + n := by
  induction n generalizing t with
  | zero => simp [runIdle]
  | succ n ih =>
    rw [runIdle, ih]
    omega

/-- C4 counterexample: on a capacity-0 raw queue, tryPushFor with a duration of 1 tick starting at
tick 0 returns ETIMEDOUT at tick 2 with 2 context switches - not at tick 0 + 1 as the claim
states (the test suite requires realDuration = singleDuration + 1). -/
theorem capacity0_tryPushFor_counterexample :
    mainIdleTimedRun (rawTryPushFor ⟨4, ⟨0, [], [], 0⟩⟩ 0 1 0 [1, 2, 3, 4] 4) 0 =
      (ETIMEDOUT, 2, 2) ∧ (2 : Nat) ≠ 0 + 1 := by
  refine ⟨?_, by decide⟩
  decide

/-- C4 amended: on a capacity-0 raw queue (simultaneously full and empty), tryPushFor with a
duration of d ticks returns ETIMEDOUT at exactly start + d + 1 ticks (2 ticks after start for
d = 1, because the relative duration is converted to the absolute deadline now + d + 1), and
exactly 2 context switches occur during the call (main to idle, idle back to main). -/
theorem capacity0_tryPushFor_times_out (es start duration prio : Nat) (data : List Nat) :
    mainIdleTimedRun (rawTryPushFor ⟨es, ⟨0, [], [], 0⟩⟩ start duration prio data es) start =
      (ETIMEDOUT, start + duration + 1, 2) := by
  unfold rawTryPushFor rawTryPushUntil
  rw [if_neg (by simp), if_neg (by simp [pushPrecondition])]
  simp only [mainIdleTimedRun]
  have h : start + duration + 1 - start = duration + 1 := by omega
  rw [h, runIdle_eq, ← Nat.add_assoc]

/-- C6: when a thread is blocked in pop() on an empty capacity-1 queue and a software timer fires
at the absolute deadline start + 10 pushing (prio, val), the blocked thread resumes at exactly tick
start + 10, pop() returns 0 delivering exactly the pushed value and priority, and exactly 2 context
switches occur. -/
theorem pop_unblocked_by_timer_push (start prio val : Nat) :
    phase3Run start 10 prio val = (0, start + 10, prio, val, 2) := by
  simp [phase3Run, tryPop, tryPush, runIdle_eq]

end Queues

namespace Scheduler

/-- C1: for every call to Scheduler::block or blockUntil that blocks the current thread, the
integer returned when the thread resumes is determined exactly by the stored unblock reason:
0 for UnblockRequest, EINTR for Signal, ETIMEDOUT for Timeout. -/
theorem block_return_reflects_unblock_reason (t : ThreadControlBlock) (reason : UnblockReason)
    (_h : t.state = .blocked) :
    blockResumeValue (unblockHook t reason) =
      some (match reason with
        | .unblockRequest => 0
        | .signal => EINTR
        | .timeout => ETIMEDOUT) := by
  cases reason <;> rfl

/-- Witness for C1: a blocked thread unblocked with reason Timeout resumes with ETIMEDOUT. -/
theorem block_return_reflects_unblock_reason_witness :
    blockResumeValue (unblockHook ⟨.blocked, none⟩ .timeout) = some ETIMEDOUT :=
  block_return_reflects_unblock_reason ⟨.blocked, none⟩ .timeout rfl

/-- C5: after any scheduler operation that changes the runnable list, a context switch is required
if and only if the current thread is no longer the head of the runnable list or the current thread
is no longer on the runnable list - the code's two sequential checks coincide with the claim's
disjunction on every scheduler state. -/
theorem isContextSwitchRequired_iff_spec (s : SchedulerState) :
    isContextSwitchRequired s = true ↔ contextSwitchRequiredSpec s := by
  unfold isContextSwitchRequired contextSwitchRequiredSpec
  by_cases h1 : s.currentThread ∈ s.runnableList
  · by_cases h2 : s.runnableList.head? = some s.currentThread
    · rw [if_neg (not_not_intro h1), if_neg (not_not_intro h2)]
      simp [h1, h2]
    · rw [if_neg (not_not_intro h1), if_pos h2]
      exact iff_of_true rfl (Or.inl h2)
  · rw [if_pos h1]
    exact iff_of_true rfl (Or.inr h1)

/-- Membership in a priority-ordered insertion: exactly the old elements plus the new pair. -/
lemma mem_insertByPriority {α : Type} (l : List (Nat × α)) (prio : Nat) (v : α) (a : Nat × α) :
    a ∈ Queues.insertByPriority l prio v ↔ a ∈ l ∨ a = (prio, v) := by
  induction l with
  | nil => simp [Queues.insertByPriority]
  | cons hd tl ih =>
    obtain ⟨p, x⟩ := hd
    by_cases hc : prio ≤ p
    · simp only [Queues.insertByPriority, if_pos hc, List.mem_cons, ih]
      tauto
    · simp only [Queues.insertByPriority, if_neg hc, List.mem_cons]
      tauto

/-- Priority-ordered insertion preserves sortedness by descending priority. -/
lemma pairwise_insertByPriority {α : Type} (l : List (Nat × α)) (prio : Nat) (v : α)
    (h : l.Pairwise (fun a b => b.1 ≤ a.1)) :
    (Queues.insertByPriority l prio v).Pairwise (fun a b => b.1 ≤ a.1) := by
  induction l with
  | nil => simp [Queues.insertByPriority]
  | cons hd tl ih =>
    obtain ⟨p, x⟩ := hd
    rw [List.pairwise_cons] at h
    obtain ⟨hhd, htl⟩ := h
    by_cases hc : prio ≤ p
    · have heq : Queues.insertByPriority ((p, x) :: tl) prio v =
          (p, x) :: Queues.insertByPriority tl prio v := by
        simp [Queues.insertByPriority, hc]
      rw [heq, List.pairwise_cons]
      refine ⟨?_, ih htl⟩
      intro a ha
      rcases (mem_insertByPriority tl prio v a).1 ha with h1 | h1
      · exact hhd a h1
      · rw [h1]
        exact hc
    · have heq : Queues.insertByPriority ((p, x) :: tl) prio v =
          (prio, v) :: (p, x) :: tl := by
        simp [Queues.insertByPriority, hc]
      rw [heq, List.pairwise_cons]
      refine ⟨?_, List.pairwise_cons.2 ⟨hhd, htl⟩⟩
      intro a ha
      rcases List.mem_cons.1 ha with h1 | h1
      · rw [h1]
        omega
      · have := hhd a h1
        omega

/-- One scheduler operation preserves the runnable-list invariant. -/
lemma schedInv_step (s s' : List (Nat × Nat)) (hinv : SchedInv s) (hop : SchedulerOp s s') :
    SchedInv s' := by
  obtain ⟨hidle, hprios, hsort⟩ := hinv
  cases hop with
  | add _ prio tid hp ht =>
    refine ⟨(mem_insertByPriority _ _ _ _).2 (Or.inl hidle), ?_,
      pairwise_insertByPriority _ _ _ hsort⟩
    intro p t hmem
    rcases (mem_insertByPriority _ _ _ _).1 hmem with h1 | h1
    · exact hprios p t h1
    · rw [Prod.mk.injEq] at h1
      obtain ⟨rfl, rfl⟩ := h1
      exact ⟨fun habs => absurd habs ht, fun _ => hp⟩
  | removeThread _ tid ht =>
    refine ⟨?_, ?_, hsort.sublist (List.filter_sublist _)⟩
    · refine List.mem_filter.2 ⟨hidle, ?_⟩
      simp only [bne_iff_ne]
      exact Ne.symm ht
    · intro p t hmem
      exact hprios p t (List.mem_filter.1 hmem).1
  | yield prio tid rest =>
    rw [List.pairwise_cons] at hsort
    obtain ⟨hhd, htl⟩ := hsort
    refine ⟨?_, ?_, pairwise_insertByPriority _ _ _ htl⟩
    · rcases List.mem_cons.1 hidle with heq | hmem
      · exact (mem_insertByPriority _ _ _ _).2 (Or.inr heq)
      · exact (mem_insertByPriority _ _ _ _).2 (Or.inl hmem)
    · intro p t hmem
      rcases (mem_insertByPriority _ _ _ _).1 hmem with h1 | h1
      · exact hprios p t (List.mem_cons.2 (Or.inr h1))
      · refine hprios p t ?_
        rw [h1]
        exact List.mem_cons_self _ _

/-- Every reachable runnable list satisfies the invariant. -/
lemma schedInv_reachable (s : List (Nat × Nat)) (h : SchedulerReachable s) : SchedInv s := by
  induction h with
  | init mainPrio mainTid hprio htid =>
    refine ⟨(mem_insertByPriority _ _ _ _).2 (Or.inl (by simp)), ?_, ?_⟩
    · intro p t hmem
      rcases (mem_insertByPriority _ _ _ _).1 hmem with h1 | h1
      · simp only [List.mem_singleton, Prod.mk.injEq] at h1
        obtain ⟨rfl, rfl⟩ := h1
        exact ⟨fun _ => rfl, fun hne => absurd rfl hne⟩
      · rw [Prod.mk.injEq] at h1
        obtain ⟨rfl, rfl⟩ := h1
        exact ⟨fun habs => absurd habs htid, fun _ => hprio⟩
    · exact pairwise_insertByPriority _ _ _ (by simp)
  | step s s' h hop ih =>
    exact schedInv_step s s' ih hop

/-- C7: after scheduler initialization the runnable list is never empty: the idle thread (priority
0) is always present, every other thread on the list has strictly greater effective priority, and
whenever any other thread is runnable the head of the list - the selected thread - is not the idle
thread, so the idle thread is only selected when no other thread is runnable. -/
theorem runnable_list_idle_invariant (s : List (Nat × Nat)) (h : SchedulerReachable s) :
    (0, idleThreadId) ∈ s ∧ s ≠ [] ∧
    (∀ p t, (p, t) ∈ s → t ≠ idleThreadId → 0 < p) ∧
    ((∃ p t, (p, t) ∈ s ∧ t ≠ idleThreadId) →
      ∀ e, s.head? = some e → e.2 ≠ idleThreadId) := by
  obtain ⟨hidle, hprios, hsort⟩ := schedInv_reachable s h
  refine ⟨hidle, List.ne_nil_of_mem hidle, ?_, ?_⟩
  · intro p t hmem hne
    have := (hprios p t hmem).2 hne
    omega
  · rintro ⟨p, t, hmem, hne⟩ e hhead
    cases s with
    | nil => simp at hhead
    | cons hd tl =>
      simp only [List.head?_cons, Option.some.injEq] at hhead
      subst hhead
      intro hcontra
      have hd0 : hd.1 = 0 := (hprios hd.1 hd.2 (by simp)).1 hcontra
      rw [List.pairwise_cons] at hsort
      obtain ⟨hhd, _⟩ := hsort
      rcases List.mem_cons.1 hmem with h1 | h1
      · exact hne ((congrArg Prod.snd h1).trans hcontra)
      · have hple : p ≤ hd.1 := hhd (p, t) h1
        have h1p : 1 ≤ p := (hprios p t hmem).2 hne
        omega

/-- Witness for C7 at the freshly initialized runnable list with main thread id 1 and priority 1. -/
theorem runnable_list_idle_invariant_witness :
    (0, idleThreadId) ∈ ([(1, 1), (0, 0)] : List (Nat × Nat)) ∧
    ([(1, 1), (0, 0)] : List (Nat × Nat)) ≠ [] ∧
    (∀ p t, (p, t) ∈ ([(1, 1), (0, 0)] : List (Nat × Nat)) → t ≠ idleThreadId → 0 < p) ∧
    ((∃ p t, (p, t) ∈ ([(1, 1), (0, 0)] : List (Nat × Nat)) ∧ t ≠ idleThreadId) →
      ∀ e, ([(1, 1), (0, 0)] : List (Nat × Nat)).head? = some e → e.2 ≠ idleThreadId) :=
  runnable_list_idle_invariant [(1, 1), (0, 0)]
    (SchedulerReachable.init 1 1 (by decide) (by decide))

end Scheduler

end Distortos
